import Mathlib

/-!
Verification development for the rpaas asynchronous task orchestration layer
(`rpaas/tasks.py` and `rpaas/ssl_plugins/default.py`).

The Python source is shallowly embedded: MongoDB task storage becomes a
`List TaskRecord`, datetimes become `Int` minutes, raised exceptions become
`Except` errors, and external side effects (provisioner, nginx health checks,
health-check API) become explicit event logs.  Each section cites the source
lines it embeds.
-/

namespace Rpaas

/-- Exceptions visible to the task registry code paths: `NotReadyError` and
`TaskNotFoundError` from `tasks.py` (lines 41-46), plus injected storage
failures used to model arbitrary exceptions raised by the data layer. -/
inductive OpError
  | notReady
  | taskNotFound
  | storageFailure (code : Nat)
  deriving DecidableEq, Repr

/-- A document in the MongoDB `tasks` collection.  `_id` is `id`; the
source field `instance` is spelled `inst` (`instance` is a Lean keyword);
`last_attempt` is `none` both for a missing field and a null field, which
coincide for the Mongo query `{"last_attempt": {"$ne": None}}`.
Times are minutes since an arbitrary epoch. -/
structure TaskRecord where
  id : String
  host : String
  inst : String
  created : Int
  last_attempt : Option Int := none
  deriving DecidableEq, Repr

/-- `storage.find_task(name)`: all documents whose `_id` equals `name`. -/
def find_task (tasks : List TaskRecord) (name : String) : List TaskRecord :=
  tasks.filter (fun t => t.id == name)

/-- `storage.store_task(...)`: insert a document. -/
def store_task (tasks : List TaskRecord) (rec : TaskRecord) : List TaskRecord :=
  tasks ++ [rec]

/-- `storage.remove_task(name)`: delete the documents with `_id = name`. -/
def remove_task (tasks : List TaskRecord) (name : String) : List TaskRecord :=
  tasks.filter (fun t => !(t.id == name))

/-- `storage.update_task(name, {"last_attempt": la})` as used at
`tasks.py:203`: merge a `last_attempt` stamp into the matching document. -/
def update_task (tasks : List TaskRecord) (name : String) (la : Int) :
    List TaskRecord :=
  tasks.map (fun t => if t.id == name then { t with last_attempt := some la } else t)

/-- `TaskManager.ensure_ready` (`tasks.py:54-57`): raise `NotReadyError`
when at least one task document with this name exists. -/
def TaskManager.ensure_ready (tasks : List TaskRecord) (name : String) :
    Except OpError Unit :=
  if (find_task tasks name).length ≥ 1 then .error .notReady else .ok ()

/-- `TaskManager.remove` (`tasks.py:59-65`): `ensure_ready` raising
`NotReadyError` means the record exists, so delete it; any other exception
propagates; if `ensure_ready` succeeded the record is absent, so raise
`TaskNotFoundError`. -/
def TaskManager.remove (tasks : List TaskRecord) (name : String) :
    Except OpError (List TaskRecord) :=
  match TaskManager.ensure_ready tasks name with
  | .error .notReady => .ok (remove_task tasks name)
  | .error e => .error e
  | .ok _ => .error .taskNotFound

/-- `TaskManager.create` (`tasks.py:67-68`). -/
def TaskManager.create (tasks : List TaskRecord) (rec : TaskRecord) :
    List TaskRecord :=
  store_task tasks rec

/-! ## Health sweep (`CheckMachineTask`, `tasks.py:240-278`) -/

/-- One entry of a consul health check: its `Status` string. -/
structure CheckInfo where
  Status : String
  deriving DecidableEq, Repr

/-- One node from `consul_manager.service_healthcheck()`; the nested
`Node.Address` / `Service.Tags` / `Checks` shape is flattened. -/
structure HealthNode where
  Address : String
  Tags : List String
  Checks : List CheckInfo
  deriving Repr

/-- Does the first character list occur at the head of the second? -/
def leadsWith : List Char → List Char → Bool
  | [], _ => true
  | _ :: _, [] => false
  | a :: as, b :: bs => a == b && leadsWith as bs

/-- Python's substring test `sub in hay`. -/
def containsSub (hay sub : String) : Bool :=
  hay.toList.tails.any (fun t => leadsWith sub.toList t)

/-- The tag scan of `CheckMachineTask.run` (`tasks.py:250-254`): start from
the configured service name; every tag not containing the service name as a
substring overwrites the accumulator. -/
def serviceInstanceOf (serviceName : String) (tags : List String) : String :=
  tags.foldl (fun acc tag => if containsSub tag serviceName then acc else tag)
    serviceName

/-- `tasks.py:255-258`: a node fails when any check status is not
`"passing"`. -/
def nodeFailing (node : HealthNode) : Bool :=
  node.Checks.any (fun c => c.Status != "passing")

/-- The restore-task document built at `tasks.py:263-265`. -/
def restoreRecordOf (serviceName : String) (now : Int) (node : HealthNode) :
    TaskRecord :=
  { id := "restore_" ++ node.Address
  , host := node.Address
  , inst := serviceInstanceOf serviceName node.Tags
  , created := now
  , last_attempt := none }

/-- The body of the `try` at `tasks.py:261-265`: `ensure_ready` followed by
`create`.  `fault` injects an arbitrary data-layer exception raised by the
insert, modelling failures beyond the registry's own signalling. -/
def createAttempt (tasks : List TaskRecord) (key : String) (rec : TaskRecord)
    (fault : Option OpError) : Except OpError (List TaskRecord) :=
  match TaskManager.ensure_ready tasks key with
  | .error e => .error e
  | .ok _ =>
    match fault with
    | some e => .error e
    | none => .ok (TaskManager.create tasks rec)

/-- The body of the `try` at `tasks.py:269-270`: `task_manager.remove`, with
`fault` injecting an arbitrary data-layer exception. -/
def removeAttempt (tasks : List TaskRecord) (key : String)
    (fault : Option OpError) : Except OpError (List TaskRecord) :=
  match fault with
  | some e => .error e
  | none => TaskManager.remove tasks key

/-- Processing of one node by `CheckMachineTask.run` (`tasks.py:244-272`):
unknown machines are logged and skipped; a failing node attempts
`ensure_ready` + `create` under a bare `except: pass`; a healthy node
attempts `remove` under a bare `except: pass`. -/
def checkNode (serviceName : String) (knownHosts : List String) (now : Int)
    (tasks : List TaskRecord) (node : HealthNode) (fault : Option OpError) :
    List TaskRecord :=
  if !(knownHosts.contains node.Address) then tasks
  else
    let task_name := "restore_" ++ node.Address
    if nodeFailing node then
      match createAttempt tasks task_name (restoreRecordOf serviceName now node)
          fault with
      | .ok tasks2 => tasks2
      | .error _ => tasks
    else
      match removeAttempt tasks task_name fault with
      | .ok tasks2 => tasks2
      | .error _ => tasks

/-- `CheckMachineTask.run`: fold `checkNode` over the nodes reported by the
health registry, each paired with its injected fault (`none` = the data
layer behaves). -/
def CheckMachineTask.run (serviceName : String) (knownHosts : List String)
    (now : Int) (tasks : List TaskRecord)
    (nodes : List (HealthNode × Option OpError)) : List TaskRecord :=
  nodes.foldl
    (fun acc nf => checkNode serviceName knownHosts now acc nf.1 nf.2) tasks

/-! ## Restore sweep (`RestoreMachineTask`, `tasks.py:186-237`) -/

/-- A document in the `hosts` collection (`storage.find_host_id`). -/
structure HostRecord where
  id : Nat
  dns_name : String
  manager : String
  deriving DecidableEq, Repr

/-- The Mongo regex `restore_.+` (`tasks.py:194,211`): the id starts with
`"restore_"` followed by at least one character. -/
def matchesRestoreId (tid : String) : Bool :=
  leadsWith "restore_".toList tid.toList && tid.length > "restore_".length

/-- `storage.find_host_id(address)`: the host document whose `dns_name`
matches, or `None`. -/
def find_host_id (hosts : List HostRecord) (dns : String) : Option HostRecord :=
  hosts.find? (fun h => h.dns_name == dns)

/-- Configuration read by `RestoreMachineTask` (`tasks.py:190-192,209-210`),
delays in minutes. -/
structure RestoreConfig where
  healthcheck_timeout : Int := 600
  restore_delay : Int := 5
  failure_delay : Int := 5
  dry_mode : Bool := false
  deriving Repr

/-- External side effects of `_restore_machine`. -/
inductive RestoreEv
  | restoreHost (dns : String)
  | waitHealthcheck (dns : String) (timeout : Int)
  deriving DecidableEq, Repr

/-- Exceptions out of `_restore_machine`: subscripting the `None` returned
by `find_host_id`, or a failure of `Host.restore()` /
`nginx_manager.wait_healthcheck` injected through the oracle. -/
inductive RestoreErr
  | hostNotFound
  | external (e : String)
  deriving DecidableEq, Repr

/-- `_failure_instances` (`tasks.py:220-226`): the Mongo query supplies the
`restore_.+` / non-null-`last_attempt` filter, the loop keeps instances whose
`last_attempt + retry_failure_delay minutes >= utcnow()`.  The Python `set`
is modelled as the list of collected instances. -/
def failure_instances (tasks : List TaskRecord)
    (retry_failure_delay now : Int) : List String :=
  (tasks.filter (fun t =>
      matchesRestoreId t.id &&
      match t.last_attempt with
      | none => false
      | some la => decide (la + retry_failure_delay ≥ now))).map
    (fun t => t.inst)

/-- `_restore_machine` (`tasks.py:208-218`).  `oracle dns = some e` means
`Host.restore()` or the health-check wait raises for that host.  A task whose
instance is in a failure window is left untouched; otherwise the host is
looked up, restored and health-checked unless dry mode is on, and the task
document is removed. -/
def RestoreMachineTask.restore_machine (cfg : RestoreConfig)
    (oracle : String → Option String) (hosts : List HostRecord)
    (tasks : List TaskRecord) (task : TaskRecord) (now : Int) :
    Except RestoreErr (List TaskRecord × List RestoreEv) :=
  if (failure_instances tasks cfg.failure_delay now).contains task.inst then
    .ok (tasks, [])
  else
    let host := find_host_id hosts task.host
    if cfg.dry_mode then
      .ok (remove_task tasks task.id, [])
    else
      match host with
      | none => .error .hostNotFound
      | some _ =>
        match oracle task.host with
        | some e => .error (.external e)
        | none =>
          .ok (remove_task tasks task.id,
               [RestoreEv.restoreHost task.host,
                RestoreEv.waitHealthcheck task.host cfg.healthcheck_timeout])

/-- `storage.find_task(restore_query)` at `tasks.py:194,196`: restore tasks
whose `created` is at least `restore_delay` minutes in the past. -/
def eligible_restore_tasks (tasks : List TaskRecord)
    (now restore_delay : Int) : List TaskRecord :=
  tasks.filter (fun t =>
    matchesRestoreId t.id && decide (t.created ≤ now - restore_delay))

/-- Outcome of one `RestoreMachineTask.run`: the surviving task documents,
whether this worker still holds the lock, the provisioner/health events in
order, and the propagated exception if any. -/
structure SweepResult where
  tasks : List TaskRecord
  lockHeld : Bool
  events : List RestoreEv
  error : Option RestoreErr
  deriving DecidableEq, Repr

/-- The `for task in ...` loop of `tasks.py:196-206`: process each eligible
task; on an exception stamp `last_attempt = now` on that task, release the
lock and re-raise; after the loop release the lock.  (The per-task lock
extension of line 201 has no observable effect in this no-expiry model.) -/
def restoreLoop (cfg : RestoreConfig) (oracle : String → Option String)
    (hosts : List HostRecord) (now : Int) :
    List TaskRecord → List TaskRecord → List RestoreEv → SweepResult
  | [], tasks, evs =>
    { tasks := tasks, lockHeld := false, events := evs, error := none }
  | task :: pending, tasks, evs =>
    match RestoreMachineTask.restore_machine cfg oracle hosts tasks task now with
    | .ok (tasks2, evs2) =>
      restoreLoop cfg oracle hosts now pending tasks2 (evs ++ evs2)
    | .error e =>
      { tasks := update_task tasks task.id now
      , lockHeld := false
      , events := evs
      , error := some e }

/-- `RestoreMachineTask.run` (`tasks.py:188-206`) for a single worker:
`lockFree` is whether the non-blocking acquisition of the named redis lock
succeeded; without the lock the sweep does nothing. -/
def RestoreMachineTask.run (cfg : RestoreConfig)
    (oracle : String → Option String) (hosts : List HostRecord)
    (tasks : List TaskRecord) (now : Int) (lockFree : Bool) : SweepResult :=
  if lockFree then
    restoreLoop cfg oracle hosts now
      (eligible_restore_tasks tasks now cfg.restore_delay) tasks []
  else
    { tasks := tasks, lockHeld := false, events := [], error := none }

/-! ## Two concurrent restore sweeps (`tasks.py:195-206, 228-237`)

Two workers run `RestoreMachineTask.run` against the same redis lock and the
same task store.  Redis lock operations (`acquire(blocking=False)`,
`release`) are atomic; lock expiry is not modelled (the sweep extends the
lock by the elapsed time after every task, `tasks.py:200-201`).  Each loop
iteration of the lock holder is one atomic step; workers not holding the
lock never touch the shared state. -/

/-- Identity of one of the two sweeping workers. -/
inductive WId
  | A
  | B
  deriving DecidableEq, Repr

/-- Control state of one worker: about to attempt the non-blocking lock
acquisition; holding the lock with the queued eligible tasks still to
process; or finished (either after releasing or after a failed
acquisition). -/
inductive WPhase
  | start
  | working (queue : List TaskRecord)
  | done
  deriving DecidableEq, Repr

/-- Shared state plus both workers' control state.  `procA`/`procB` log the
ids of the restore tasks each worker actually processed (restored and
deleted). -/
structure LockSys where
  tasks : List TaskRecord
  lock : Option WId
  phaseA : WPhase
  phaseB : WPhase
  procA : List String
  procB : List String
  deriving DecidableEq, Repr

def LockSys.phase (s : LockSys) : WId → WPhase
  | .A => s.phaseA
  | .B => s.phaseB

def LockSys.setPhase (s : LockSys) (w : WId) (p : WPhase) : LockSys :=
  match w with
  | .A => { s with phaseA := p }
  | .B => { s with phaseB := p }

def LockSys.addProc (s : LockSys) (w : WId) (tid : String) : LockSys :=
  match w with
  | .A => { s with procA := s.procA ++ [tid] }
  | .B => { s with procB := s.procB ++ [tid] }

/-- One atomic step of worker `w`:
`start`: `redis_lock.acquire(blocking=False)` — take the free lock and
snapshot the eligible tasks (`tasks.py:195-196`), or finish at once when it
is held elsewhere; `working (t :: rest)`: one iteration of the fault-free
restore loop — skip `t` when its instance is in a failure window, otherwise
restore the host, delete the task document and log it; `working []`:
`self._redis_unlock()` (`tasks.py:206`). -/
def sweepStep (cfg : RestoreConfig) (now : Int) (w : WId) (s : LockSys) :
    LockSys :=
  match s.phase w with
  | .start =>
    match s.lock with
    | none =>
      { s.setPhase w
          (.working (eligible_restore_tasks s.tasks now cfg.restore_delay))
        with lock := some w }
    | some _ => s.setPhase w .done
  | .working [] => { s.setPhase w .done with lock := none }
  | .working (t :: rest) =>
    if (failure_instances s.tasks cfg.failure_delay now).contains t.inst then
      s.setPhase w (.working rest)
    else
      { (s.addProc w t.id).setPhase w (.working rest)
        with tasks := remove_task s.tasks t.id }
  | .done => s

/-- Run a schedule: at each tick the named worker takes its next atomic
step. -/
def sweepExec (cfg : RestoreConfig) (now : Int) (sched : List WId)
    (s : LockSys) : LockSys :=
  sched.foldl (fun s w => sweepStep cfg now w s) s

/-- Both sweeps start before the lock attempt, the lock free, nothing
processed. -/
def initSys (tasks : List TaskRecord) : LockSys :=
  { tasks := tasks, lock := none, phaseA := .start, phaseB := .start
  , procA := [], procB := [] }

/-- Both workers are inside the lock-protected loop at once. -/
def bothWorking (s : LockSys) : Prop :=
  (∃ q, s.phaseA = WPhase.working q) ∧ (∃ q, s.phaseB = WPhase.working q)

/-- Inductive invariant of the two-worker sweep system, relative to `E0`,
the ids of the initially eligible restore tasks: a working worker holds the
lock and vice versa; no stored task carries a `last_attempt` stamp; task ids
are unique; a working worker's queue is exactly the currently eligible
tasks; the processed logs plus the still-eligible ids are a permutation
(stated by counts) of `E0`; and when both workers are finished no eligible
task remains. -/
def SweepInv (cfg : RestoreConfig) (now : Int) (E0 : List String)
    (s : LockSys) : Prop :=
  (∀ w q, s.phase w = WPhase.working q → s.lock = some w)
  ∧ (∀ w, s.lock = some w → ∃ q, s.phase w = WPhase.working q)
  ∧ (∀ t ∈ s.tasks, t.last_attempt = none)
  ∧ (s.tasks.map TaskRecord.id).Nodup
  ∧ (∀ w q, s.phase w = WPhase.working q →
      q = eligible_restore_tasks s.tasks now cfg.restore_delay)
  ∧ (∀ x : String,
      (s.procA ++ s.procB
        ++ (eligible_restore_tasks s.tasks now cfg.restore_delay).map
            TaskRecord.id).count x = E0.count x)
  ∧ (s.phaseA = WPhase.done → s.phaseB = WPhase.done →
      eligible_restore_tasks s.tasks now cfg.restore_delay = [])

/-! ## `BaseManagerTask._add_host` with rollback (`tasks.py:100-130`) -/

/-- Observable actions of `_add_host` and its rollback.  `hostDestroy` and
`consulRemoveNode` are the two effects of `self._delete_host(host)` with no
load balancer argument (`tasks.py:132-141`); `logRollbackError` is one of the
`logging.error("Error in rollback trying to ...")` calls. -/
inductive AddHostEv
  | hostCreate (name : String)
  | lbCreate (name : String)
  | lbAddHost
  | waitHealthcheck (dns : String)
  | hcCreate (name : String)
  | hcAddUrl (name : String)
  | removeTask (name : String)
  | lbDestroy
  | hostDestroy
  | consulRemoveNode
  | hcDestroy (name : String)
  | logRollbackError (step : String)
  deriving DecidableEq, Repr

/-- Failure script for the `try` body of `_add_host` (`tasks.py:104-111`):
for each fallible call, `some e` means it raises `e`. -/
structure BodyFaults where
  lb_create : Option String := none
  lb_add_host : Option String := none
  wait_healthcheck : Option String := none
  hc_create : Option String := none
  hc_add_url : Option String := none
  remove_task : Option String := none
  deriving Repr

/-- Failure script for the three rollback cleanups (`tasks.py:117-129`). -/
structure RollbackFaults where
  lb_destroy : Option String := none
  delete_host : Option String := none
  hc_destroy : Option String := none
  deriving Repr

/-- Run a straight-line sequence of fallible calls: stop at the first
injected fault, returning the events of the calls that completed and the
raised error if any. -/
def runSteps : List (Option String × AddHostEv) → List AddHostEv × Option String
  | [] => ([], none)
  | (some e, _) :: _ => ([], some e)
  | (none, ev) :: rest =>
    let (evs, r) := runSteps rest
    (ev :: evs, r)

/-- The `try` body of `_add_host` in order (`tasks.py:105-111`): create the
load balancer when none was passed in, attach the host, wait for its health
check, register it with the health-check API, clear the pending task. -/
def bodySteps (bf : BodyFaults) (name : String) (lbGiven : Bool) :
    List (Option String × AddHostEv) :=
  (if lbGiven then [] else [(bf.lb_create, AddHostEv.lbCreate name)]) ++
  [(bf.lb_add_host, AddHostEv.lbAddHost),
   (bf.wait_healthcheck, AddHostEv.waitHealthcheck name),
   (bf.hc_create, AddHostEv.hcCreate name),
   (bf.hc_add_url, AddHostEv.hcAddUrl name),
   (bf.remove_task, AddHostEv.removeTask name)]

/-- `created_lb` (`tasks.py:103,106`) is non-`None` exactly when no load
balancer was passed in and `LoadBalancer.create` returned. -/
def created_lb (bf : BodyFaults) (lbGiven : Bool) : Bool :=
  !lbGiven && bf.lb_create.isNone

/-- The rollback block (`tasks.py:117-129`): destroy the load balancer only
if this call created it, destroy the host (`_delete_host`), remove the
health-check registration — each wrapped in its own
`try/except Exception: logging.error(...)`. -/
def rollbackEvents (rf : RollbackFaults) (name : String) (createdLb : Bool) :
    List AddHostEv :=
  (if createdLb then
    match rf.lb_destroy with
    | none => [AddHostEv.lbDestroy]
    | some _ => [AddHostEv.logRollbackError "load balancer"]
  else []) ++
  (match rf.delete_host with
   | none => [AddHostEv.hostDestroy, AddHostEv.consulRemoveNode]
   | some _ => [AddHostEv.logRollbackError "host"]) ++
  (match rf.hc_destroy with
   | none => [AddHostEv.hcDestroy name]
   | some _ => [AddHostEv.logRollbackError "healthcheck"])

/-- `BaseManagerTask._add_host` (`tasks.py:100-130`): create the host, run
the `try` body; on a body exception either re-raise at once
(`RPAAS_ROLLBACK_ON_ERROR` off) or run the rollback block and then re-raise
the saved `sys.exc_info()` — the original exception either way.  Result:
the event log and the exception reaching the caller. -/
def BaseManagerTask.add_host (rollback_on_error : Bool) (bf : BodyFaults)
    (rf : RollbackFaults) (name : String) (lbGiven : Bool) :
    List AddHostEv × Option String :=
  let (bodyEvs, res) := runSteps (bodySteps bf name lbGiven)
  let evs := AddHostEv.hostCreate name :: bodyEvs
  match res with
  | none => (evs, none)
  | some e =>
    if rollback_on_error then
      (evs ++ rollbackEvents rf name (created_lb bf lbGiven), some e)
    else
      (evs, some e)

/-! ## `ScaleInstanceTask` (`tasks.py:166-183`) -/

/-- The in-memory load balancer object (`hm.model.load_balancer`): an
external collaborator, interface-only — `lb.hosts` is read as a stable
sequence and `lb.remove_host(host)` detaches the host without reordering
it. -/
structure LB where
  name : String
  hosts : List HostRecord
  deriving Repr

/-- Provisioner calls made by the scale loop. -/
inductive ScaleEv
  | addHost (name : String)
  | deleteHost (h : HostRecord)
  deriving DecidableEq, Repr

inductive ScaleErr
  | instanceNotFound
  | indexError
  deriving DecidableEq, Repr

/-- The loop `for i in xrange(abs(diff))` (`tasks.py:177-181`) over the
already-computed index list: growing calls `_add_host(name, lb=lb)`,
shrinking calls `_delete_host(lb.hosts[i], lb)`; an index beyond the host
list is Python's `IndexError`. -/
def scaleRange (name : String) (hosts : List HostRecord) (diff : Int) :
    List Nat → Except ScaleErr (List ScaleEv)
  | [] => .ok []
  | i :: is =>
    match
      (if diff > 0 then .ok (ScaleEv.addHost name)
       else
         match hosts.get? i with
         | some h => .ok (ScaleEv.deleteHost h)
         | none => .error ScaleErr.indexError :
        Except ScaleErr ScaleEv) with
    | .error e => .error e
    | .ok ev =>
      match scaleRange name hosts diff is with
      | .error e => .error e
      | .ok evs => .ok (ev :: evs)

/-- `ScaleInstanceTask.run` (`tasks.py:168-183`): missing load balancer
raises `InstanceNotFoundError`; `diff = quantity - len(lb.hosts)`; zero is a
no-op; otherwise run the loop.  (The `finally: storage.remove_task(name)` of
line 182-183 always runs and is independent of the returned value.) -/
def ScaleInstanceTask.run (lb : Option LB) (name : String) (quantity : Int) :
    Except ScaleErr (List ScaleEv) :=
  match lb with
  | none => .error .instanceNotFound
  | some lb =>
    let diff : Int := quantity - lb.hosts.length
    if diff == 0 then .ok []
    else scaleRange name lb.hosts diff (List.range diff.natAbs)

/-! ## SSL plugins (`ssl_plugins/default.py`, `tasks.py:291-309`) -/

namespace ssl_plugins

/-- The built-in self-signed plugin (`ssl_plugins/default.py:19-24`). -/
structure Default where
  domain : String
  deriving DecidableEq, Repr

/-- `Default.__init__(self, domain)` applied to a positional argument list:
the constructor accepts exactly one argument; any other arity is a Python
`TypeError`, modelled as `none`. -/
def Default.new : List String → Option Default
  | [domain] => some { domain := domain }
  | _ => none

end ssl_plugins

/-- The positional arguments the revoke handler passes to the plugin class
(`tasks.py:301-302`): `domain`, `os.environ.get('RPAAS_PLUGIN_LE_EMAIL',
'admin@' + domain)`, `name`. -/
def revoke_plugin_args (domain : String) (env_le_email : Option String)
    (name : String) : List String :=
  [domain, env_le_email.getD ("admin@" ++ domain), name]

/-- `RevokeCertTask.run` instantiating the built-in default adapter: apply
`Default.__init__` to the three revoke arguments. -/
def RevokeCertTask.instantiate_default (domain : String)
    (env_le_email : Option String) (name : String) :
    Option ssl_plugins.Default :=
  ssl_plugins.Default.new (revoke_plugin_args domain env_le_email name)

/-! ## Certificate renewal sweep (`RenewCertsTask`, `tasks.py:312-331`) -/

/-- A document in the Let's Encrypt certificates collection. `created` is in
minutes since the epoch shared by the whole model. -/
structure CertRecord where
  name : String
  domain : String
  created : Int
  deriving DecidableEq, Repr

/-- Minutes in a day, to express `datetime.timedelta(days=n)`. -/
def minutesPerDay : Int := 1440

/-- `storage.find_le_certificates(query)` with
`query = {"created": {"$lte": utcnow() - timedelta(days=expires_in - 3)}}`
(`tasks.py:316-319`). -/
def RenewCertsTask.select_certs (certs : List CertRecord)
    (now expires_in : Int) : List CertRecord :=
  certs.filter (fun c =>
    decide (c.created ≤ now - (expires_in - 3) * minutesPerDay))

/-- A `DownloadCertTask.delay(...)` enqueued by `RenewCertsTask.renew`
(`tasks.py:327-331`). -/
structure RenewJob where
  name : String
  plugin : String
  domain : String
  deriving DecidableEq, Repr

/-- `RenewCertsTask.run` (`tasks.py:314-325`): for every selected record,
enqueue a download job with plugin `"le"`. -/
def RenewCertsTask.run (certs : List CertRecord) (now expires_in : Int) :
    List RenewJob :=
  (RenewCertsTask.select_certs certs now expires_in).map
    (fun c => { name := c.name, plugin := "le", domain := c.domain })

/-! # Theorems -/

/-- A task document with the given id exists iff `find_task` returns a
non-trivial cursor (`task.count() >= 1`). -/
theorem find_task_length_iff (tasks : List TaskRecord) (key : String) :
    (find_task tasks key).length ≥ 1 ↔ ∃ t ∈ tasks, t.id = key := by
  constructor
  · intro h
    obtain ⟨x, hx⟩ :=
      List.length_pos_iff_exists_mem.mp (Nat.lt_of_lt_of_le Nat.zero_lt_one h)
    rw [find_task, List.mem_filter] at hx
    exact ⟨x, hx.1, by simpa using hx.2⟩
  · rintro ⟨t, ht, hid⟩
    have hmem : t ∈ find_task tasks key :=
      List.mem_filter.mpr ⟨ht, by simp [hid]⟩
    exact List.length_pos_of_mem hmem

theorem ensure_ready_error_iff (tasks : List TaskRecord) (key : String) :
    TaskManager.ensure_ready tasks key = .error .notReady ↔
      ∃ t ∈ tasks, t.id = key := by
  rw [← find_task_length_iff]
  unfold TaskManager.ensure_ready
  by_cases h : (find_task tasks key).length ≥ 1 <;> simp [h]

theorem ensure_ready_removed (tasks : List TaskRecord) (key : String) :
    TaskManager.ensure_ready (remove_task tasks key) key = .ok () := by
  unfold TaskManager.ensure_ready
  have : find_task (remove_task tasks key) key = [] := by
    unfold find_task remove_task
    rw [List.filter_filter]
    apply List.filter_eq_nil_iff.mpr
    intro a _
    by_cases h : a.id = key <;> simp [h]
  simp [this]

/-- **C2.** `ensure_ready(key)` raises `NotReadyError` iff a pending task
document for `key` exists; when one exists, `remove(key)` deletes it so a
subsequent `ensure_ready(key)` succeeds; when none exists, `remove(key)`
raises `TaskNotFoundError` rather than silently succeeding. -/
theorem claim_C2 (tasks : List TaskRecord) (key : String) :
    (TaskManager.ensure_ready tasks key = .error .notReady ↔
      ∃ t ∈ tasks, t.id = key)
    ∧ ((∃ t ∈ tasks, t.id = key) →
        TaskManager.remove tasks key = .ok (remove_task tasks key)
        ∧ TaskManager.ensure_ready (remove_task tasks key) key = .ok ())
    ∧ ((¬ ∃ t ∈ tasks, t.id = key) →
        TaskManager.remove tasks key = .error .taskNotFound) := by
  refine ⟨ensure_ready_error_iff tasks key, ?_, ?_⟩
  · intro hex
    have h := (ensure_ready_error_iff tasks key).mpr hex
    refine ⟨?_, ensure_ready_removed tasks key⟩
    unfold TaskManager.remove
    rw [h]
  · intro hnex
    have h1 : ¬ (find_task tasks key).length ≥ 1 := by
      rw [find_task_length_iff]; exact hnex
    unfold TaskManager.remove TaskManager.ensure_ready
    simp [h1]

/-- Witness for C2 at a one-document store. -/
theorem claim_C2_witness :
    TaskManager.remove [(⟨"app1", "h1", "app1", 0, none⟩ : TaskRecord)] "app1" =
      .ok (remove_task [(⟨"app1", "h1", "app1", 0, none⟩ : TaskRecord)] "app1")
    ∧ TaskManager.ensure_ready
        (remove_task [(⟨"app1", "h1", "app1", 0, none⟩ : TaskRecord)] "app1")
        "app1" = .ok () :=
  (claim_C2 [(⟨"app1", "h1", "app1", 0, none⟩ : TaskRecord)] "app1").2.1
    (by decide)

/-- **C3 counterexample.** The claim says the built-in self-signed default
adapter is constructible with `(domain, notifyEmail, instanceName)`; but a
revoke job selecting the default plugin applies its one-argument constructor
to those three values and gets a `TypeError` (`none`). -/
theorem claim_C3_counterexample :
    RevokeCertTask.instantiate_default "example.com" none "app1" = none := rfl

/-- **C3 (amended).** Every revoke job instantiates the selected adapter
with exactly `(domain, notifyEmail, instanceName)` — the notify email coming
from `RPAAS_PLUGIN_LE_EMAIL` with default `admin@<domain>` — but the
built-in self-signed default adapter accepts exactly one constructor
argument `(domain)`, so that three-argument instantiation fails for it. -/
theorem claim_C3 (domain name email : String) (env : Option String) :
    (revoke_plugin_args domain env name).length = 3
    ∧ revoke_plugin_args domain none name = [domain, "admin@" ++ domain, name]
    ∧ revoke_plugin_args domain (some email) name = [domain, email, name]
    ∧ ssl_plugins.Default.new [domain] = some { domain := domain }
    ∧ ssl_plugins.Default.new (revoke_plugin_args domain env name) = none := by
  refine ⟨rfl, rfl, rfl, rfl, ?_⟩
  cases env <;> rfl

/-- **C8.** A certificate record is selected by the renewal sweep iff
`created <= now - (expiration_days - 3) days`; in particular a record
created now with `expiration_days = 90` is never selected, and every
selected record is re-enqueued as an `"le"` download job. -/
theorem claim_C8 (certs : List CertRecord) (now expires_in : Int)
    (c : CertRecord) :
    (c ∈ RenewCertsTask.select_certs certs now expires_in ↔
      c ∈ certs ∧ c.created ≤ now - (expires_in - 3) * minutesPerDay)
    ∧ (c.created = now → expires_in = 90 →
        c ∉ RenewCertsTask.select_certs certs now expires_in)
    ∧ RenewCertsTask.run certs now expires_in =
        (RenewCertsTask.select_certs certs now expires_in).map
          (fun c => { name := c.name, plugin := "le", domain := c.domain }) := by
  refine ⟨?_, ?_, rfl⟩
  · simp [RenewCertsTask.select_certs, List.mem_filter]
  · intro hc he hmem
    rw [RenewCertsTask.select_certs, List.mem_filter] at hmem
    have := of_decide_eq_true hmem.2
    rw [hc, he] at this
    simp only [minutesPerDay] at this
    omega

/-- Witness for C8: a record created today with 90-day expiry is not
selected. -/
theorem claim_C8_witness :
    (⟨"app1", "example.com", 1000⟩ : CertRecord) ∉
      RenewCertsTask.select_certs
        [(⟨"app1", "example.com", 1000⟩ : CertRecord)] 1000 90 :=
  (claim_C8 [(⟨"app1", "example.com", 1000⟩ : CertRecord)] 1000 90
      (⟨"app1", "example.com", 1000⟩ : CertRecord)).2.1 rfl rfl

/-- Unfolding of `checkNode` on a known provisioned address. -/
theorem checkNode_known (sn : String) (kh : List String) (now : Int)
    (tasks : List TaskRecord) (node : HealthNode) (fault : Option OpError)
    (hknown : kh.contains node.Address = true) :
    checkNode sn kh now tasks node fault =
      if nodeFailing node then
        match createAttempt tasks ("restore_" ++ node.Address)
            (restoreRecordOf sn now node) fault with
        | .ok tasks2 => tasks2
        | .error _ => tasks
      else
        match removeAttempt tasks ("restore_" ++ node.Address) fault with
        | .ok tasks2 => tasks2
        | .error _ => tasks := by
  unfold checkNode
  rw [hknown]
  rfl

/-- **C6.** For a known provisioned host address reported by the health
registry, with the data layer behaving (no injected fault): a failing node
with no `restore_<address>` task creates exactly that one task; a failing
node with a pre-existing task leaves the store untouched (no duplicate); a
healthy node with a task removes it (after which the id is absent); a
healthy node without a task leaves the store untouched. -/
theorem claim_C6 (sn : String) (kh : List String) (now : Int)
    (tasks : List TaskRecord) (node : HealthNode)
    (hknown : kh.contains node.Address = true) :
    (nodeFailing node = true →
      find_task tasks ("restore_" ++ node.Address) = [] →
      find_task (checkNode sn kh now tasks node none)
          ("restore_" ++ node.Address) = [restoreRecordOf sn now node])
    ∧ (nodeFailing node = true →
      find_task tasks ("restore_" ++ node.Address) ≠ [] →
      checkNode sn kh now tasks node none = tasks)
    ∧ (nodeFailing node = false →
      find_task tasks ("restore_" ++ node.Address) ≠ [] →
      checkNode sn kh now tasks node none =
          remove_task tasks ("restore_" ++ node.Address)
        ∧ find_task (checkNode sn kh now tasks node none)
            ("restore_" ++ node.Address) = [])
    ∧ (nodeFailing node = false →
      find_task tasks ("restore_" ++ node.Address) = [] →
      checkNode sn kh now tasks node none = tasks) := by
  have hlen0 : ∀ l : List TaskRecord, l = [] → ¬ l.length ≥ 1 := by
    intro l h; subst h; simp
  have hlen1 : ∀ l : List TaskRecord, l ≠ [] → l.length ≥ 1 := by
    intro l h
    exact Nat.one_le_iff_ne_zero.mpr (fun hz => h (List.eq_nil_of_length_eq_zero hz))
  refine ⟨?_, ?_, ?_, ?_⟩
  · intro hfail habsent
    have hready : TaskManager.ensure_ready tasks ("restore_" ++ node.Address) =
        .ok () := by
      unfold TaskManager.ensure_ready
      simp [hlen0 _ habsent]
    rw [checkNode_known sn kh now tasks node none hknown, hfail, if_pos rfl,
      createAttempt, hready]
    unfold TaskManager.create store_task find_task
    rw [List.filter_append]
    rw [find_task] at habsent
    rw [habsent]
    simp [restoreRecordOf]
  · intro hfail hpresent
    have hready : TaskManager.ensure_ready tasks ("restore_" ++ node.Address) =
        .error .notReady := by
      unfold TaskManager.ensure_ready
      simp [hlen1 _ hpresent]
    rw [checkNode_known sn kh now tasks node none hknown, hfail, if_pos rfl,
      createAttempt, hready]
  · intro hok hpresent
    have hready : TaskManager.ensure_ready tasks ("restore_" ++ node.Address) =
        .error .notReady := by
      unfold TaskManager.ensure_ready
      simp [hlen1 _ hpresent]
    have hstep : checkNode sn kh now tasks node none =
        remove_task tasks ("restore_" ++ node.Address) := by
      rw [checkNode_known sn kh now tasks node none hknown, hok]
      simp only [Bool.false_eq_true, if_false, removeAttempt,
        TaskManager.remove, hready]
    refine ⟨hstep, ?_⟩
    rw [hstep]
    unfold find_task remove_task
    rw [List.filter_filter]
    apply List.filter_eq_nil_iff.mpr
    intro a _
    by_cases h : a.id = "restore_" ++ node.Address <;> simp [h]
  · intro hok habsent
    have hready : TaskManager.ensure_ready tasks ("restore_" ++ node.Address) =
        .ok () := by
      unfold TaskManager.ensure_ready
      simp [hlen0 _ habsent]
    rw [checkNode_known sn kh now tasks node none hknown, hok]
    simp only [Bool.false_eq_true, if_false, removeAttempt,
      TaskManager.remove, hready]

/-- Witness for C6: one failing node, empty store — exactly one restore task
appears. -/
theorem claim_C6_witness :
    find_task
        (checkNode "rpaas" ["10.0.0.1"] 50 []
          (⟨"10.0.0.1", ["rpaas", "inst1"], [⟨"critical"⟩]⟩ : HealthNode) none)
        ("restore_" ++ "10.0.0.1") =
      [restoreRecordOf "rpaas" 50
        (⟨"10.0.0.1", ["rpaas", "inst1"], [⟨"critical"⟩]⟩ : HealthNode)] :=
  (claim_C6 "rpaas" ["10.0.0.1"] 50 []
      (⟨"10.0.0.1", ["rpaas", "inst1"], [⟨"critical"⟩]⟩ : HealthNode)
      (by decide)).1 (by decide) rfl

/-- **C10.** The health sweep never propagates an exception raised while
creating or removing a restore task: any error out of the `ensure_ready` +
`create` attempt or the `remove` attempt — including injected data-layer
failures, not only the registry's own signals — leaves the task store as it
was, and the fold continues with the remaining nodes. -/
theorem claim_C10 (sn : String) (kh : List String) (now : Int)
    (tasks : List TaskRecord) (node : HealthNode) (fault : Option OpError)
    (rest : List (HealthNode × Option OpError)) :
    (∀ e, kh.contains node.Address = true → nodeFailing node = true →
      createAttempt tasks ("restore_" ++ node.Address)
          (restoreRecordOf sn now node) fault = .error e →
      checkNode sn kh now tasks node fault = tasks)
    ∧ (∀ e, kh.contains node.Address = true → nodeFailing node = false →
      removeAttempt tasks ("restore_" ++ node.Address) fault = .error e →
      checkNode sn kh now tasks node fault = tasks)
    ∧ CheckMachineTask.run sn kh now tasks ((node, fault) :: rest) =
        CheckMachineTask.run sn kh now
          (checkNode sn kh now tasks node fault) rest := by
  refine ⟨?_, ?_, rfl⟩
  · intro e hknown hfail herr
    rw [checkNode_known sn kh now tasks node fault hknown, hfail, if_pos rfl,
      herr]
  · intro e hknown hok herr
    rw [checkNode_known sn kh now tasks node fault hknown, hok]
    simp only [Bool.false_eq_true, if_false, herr]

/-- Witness for C10: a storage failure injected while creating the restore
task for a failing node is swallowed and the store is unchanged. -/
theorem claim_C10_witness :
    checkNode "rpaas" ["10.0.0.1"] 50 []
      (⟨"10.0.0.1", ["rpaas", "inst1"], [⟨"critical"⟩]⟩ : HealthNode)
      (some (OpError.storageFailure 7)) = [] :=
  (claim_C10 "rpaas" ["10.0.0.1"] 50 []
      (⟨"10.0.0.1", ["rpaas", "inst1"], [⟨"critical"⟩]⟩ : HealthNode)
      (some (OpError.storageFailure 7)) []).1 (OpError.storageFailure 7)
    (by decide) (by decide) rfl

/-- Membership characterisation of `_failure_instances`: an instance is in a
failure window iff some restore-task document with a non-null `last_attempt`
for that instance has `last_attempt + retry_failure_delay >= now`. -/
theorem mem_failure_instances (tasks : List TaskRecord) (d now : Int)
    (x : String) :
    (failure_instances tasks d now).contains x = true ↔
      ∃ t ∈ tasks, matchesRestoreId t.id = true ∧ t.inst = x ∧
        ∃ la, t.last_attempt = some la ∧ la + d ≥ now := by
  constructor
  · intro h
    have hx : x ∈ (tasks.filter (fun t =>
        matchesRestoreId t.id &&
        match t.last_attempt with
        | none => false
        | some la => decide (la + d ≥ now))).map (fun t => t.inst) := by
      simpa [failure_instances] using h
    obtain ⟨t, htf, hinst⟩ := List.mem_map.mp hx
    obtain ⟨htm, hp⟩ := List.mem_filter.mp htf
    rw [Bool.and_eq_true] at hp
    refine ⟨t, htm, hp.1, hinst, ?_⟩
    rcases hla : t.last_attempt with _ | la
    · rw [hla] at hp
      simp at hp
    · rw [hla] at hp
      exact ⟨la, rfl, of_decide_eq_true hp.2⟩
  · rintro ⟨t, htm, hmr, hinst, la, hla, hge⟩
    have hp : (matchesRestoreId t.id &&
        match t.last_attempt with
        | none => false
        | some la => decide (la + d ≥ now)) = true := by
      rw [Bool.and_eq_true]
      refine ⟨hmr, ?_⟩
      rw [hla]
      exact decide_eq_true hge
    have hx : x ∈ (tasks.filter (fun t =>
        matchesRestoreId t.id &&
        match t.last_attempt with
        | none => false
        | some la => decide (la + d ≥ now))).map (fun t => t.inst) :=
      List.mem_map.mpr ⟨t, List.mem_filter.mpr ⟨htm, hp⟩, hinst⟩
    simpa [failure_instances] using hx

/-- Removing a member record's id changes the store. -/
theorem remove_task_ne (tasks : List TaskRecord) (task : TaskRecord)
    (hmem : task ∈ tasks) : remove_task tasks task.id ≠ tasks := by
  intro h
  have hm : task ∈ remove_task tasks task.id := by rw [h]; exact hmem
  rw [remove_task, List.mem_filter] at hm
  simp at hm

/-- **C5.** An eligible restore task is skipped (store unchanged, no restore
call, no health-check wait) iff its instance is in cooldown — some
restore-task document for the same instance has a non-null `last_attempt`
with `last_attempt + failure_delay` minutes not yet past; otherwise the task
document is deleted, with the host restored and health-checked unless
dry-run mode is on. -/
theorem claim_C5 (cfg : RestoreConfig) (oracle : String → Option String)
    (hosts : List HostRecord) (tasks : List TaskRecord) (task : TaskRecord)
    (now : Int) (hmem : task ∈ tasks)
    (hhost : cfg.dry_mode = false → (find_host_id hosts task.host).isSome = true)
    (hfault : oracle task.host = none) :
    (RestoreMachineTask.restore_machine cfg oracle hosts tasks task now =
        .ok (tasks, []) ↔
      (failure_instances tasks cfg.failure_delay now).contains task.inst = true)
    ∧ ((failure_instances tasks cfg.failure_delay now).contains task.inst
        = true ↔
      ∃ t ∈ tasks, matchesRestoreId t.id = true ∧ t.inst = task.inst ∧
        ∃ la, t.last_attempt = some la ∧ la + cfg.failure_delay ≥ now)
    ∧ ((failure_instances tasks cfg.failure_delay now).contains task.inst
        = false → cfg.dry_mode = true →
      RestoreMachineTask.restore_machine cfg oracle hosts tasks task now =
        .ok (remove_task tasks task.id, []))
    ∧ ((failure_instances tasks cfg.failure_delay now).contains task.inst
        = false → cfg.dry_mode = false →
      RestoreMachineTask.restore_machine cfg oracle hosts tasks task now =
        .ok (remove_task tasks task.id,
          [RestoreEv.restoreHost task.host,
           RestoreEv.waitHealthcheck task.host cfg.healthcheck_timeout])) := by
  have hdry : (failure_instances tasks cfg.failure_delay now).contains task.inst
      = false → cfg.dry_mode = true →
      RestoreMachineTask.restore_machine cfg oracle hosts tasks task now =
        .ok (remove_task tasks task.id, []) := by
    intro hnc hd
    unfold RestoreMachineTask.restore_machine
    rw [hnc, hd]
    rfl
  have hwet : (failure_instances tasks cfg.failure_delay now).contains task.inst
      = false → cfg.dry_mode = false →
      RestoreMachineTask.restore_machine cfg oracle hosts tasks task now =
        .ok (remove_task tasks task.id,
          [RestoreEv.restoreHost task.host,
           RestoreEv.waitHealthcheck task.host cfg.healthcheck_timeout]) := by
    intro hnc hd
    obtain ⟨h, hh⟩ := Option.isSome_iff_exists.mp (hhost hd)
    unfold RestoreMachineTask.restore_machine
    rw [hnc, hd]
    simp only [Bool.false_eq_true, if_false, hh, hfault]
  refine ⟨?_, mem_failure_instances tasks cfg.failure_delay now task.inst,
    hdry, hwet⟩
  constructor
  · intro heq
    by_contra hnc
    have hnc' : (failure_instances tasks cfg.failure_delay now).contains
        task.inst = false := by
      revert hnc
      cases (failure_instances tasks cfg.failure_delay now).contains task.inst
        <;> simp
    rcases hd : cfg.dry_mode with _ | _
    · rw [hwet hnc' hd] at heq
      simp at heq
    · rw [hdry hnc' hd] at heq
      rw [Except.ok.injEq, Prod.mk.injEq] at heq
      exact remove_task_ne tasks task hmem heq.1
  · intro hcool
    unfold RestoreMachineTask.restore_machine
    rw [hcool]
    rfl

/-- Witness for C5: no cooldown, live mode — the host is restored,
health-checked, and the task document deleted. -/
theorem claim_C5_witness :
    RestoreMachineTask.restore_machine ({} : RestoreConfig) (fun _ => none)
      [(⟨1, "10.0.0.1", "cloudstack"⟩ : HostRecord)]
      [(⟨"restore_10.0.0.1", "10.0.0.1", "inst1", 0, none⟩ : TaskRecord)]
      (⟨"restore_10.0.0.1", "10.0.0.1", "inst1", 0, none⟩ : TaskRecord) 100 =
    .ok (remove_task
        [(⟨"restore_10.0.0.1", "10.0.0.1", "inst1", 0, none⟩ : TaskRecord)]
        "restore_10.0.0.1",
      [RestoreEv.restoreHost "10.0.0.1",
       RestoreEv.waitHealthcheck "10.0.0.1" 600]) :=
  (claim_C5 ({} : RestoreConfig) (fun _ => none)
      [(⟨1, "10.0.0.1", "cloudstack"⟩ : HostRecord)]
      [(⟨"restore_10.0.0.1", "10.0.0.1", "inst1", 0, none⟩ : TaskRecord)]
      (⟨"restore_10.0.0.1", "10.0.0.1", "inst1", 0, none⟩ : TaskRecord) 100
      (by decide) (fun _ => by decide) rfl).2.2.2 (by decide) rfl

/-- Scaling down, the loop over indices `k..k+n-1` deletes exactly the `n`
hosts starting at position `k` of the list, in order. -/
theorem scaleRange_front (name : String) (hosts : List HostRecord)
    (diff : Int) (hneg : ¬ diff > 0) :
    ∀ n k, k + n ≤ hosts.length →
      scaleRange name hosts diff (List.range' k n) =
        .ok (((hosts.drop k).take n).map ScaleEv.deleteHost) := by
  intro n
  induction n with
  | zero =>
    intro k _
    rfl
  | succ n ih =>
    intro k hle
    have hk : k < hosts.length := by omega
    have hget : hosts.get? k = some (hosts.get ⟨k, hk⟩) := List.get?_eq_get hk
    have hdrop : hosts.drop k = hosts.get ⟨k, hk⟩ :: hosts.drop (k + 1) := by
      rw [List.drop_eq_getElem_cons hk]
      rfl
    rw [List.range'_succ]
    simp only [scaleRange]
    rw [if_neg hneg, hget, ih (k + 1) (by omega), hdrop]
    rfl

/-- **C7.** For a scale request below the current host count, the handler
removes exactly `|diff|` hosts, and they are the first `|diff|` entries of
the host list as it stood before any removal. -/
theorem claim_C7 (lb : LB) (name : String) (quantity : Int)
    (hq : 0 ≤ quantity) (hlt : quantity < (lb.hosts.length : Int)) :
    ScaleInstanceTask.run (some lb) name quantity =
      .ok ((lb.hosts.take (lb.hosts.length - quantity.toNat)).map
        ScaleEv.deleteHost)
    ∧ ((lb.hosts.take (lb.hosts.length - quantity.toNat)).map
        ScaleEv.deleteHost).length = lb.hosts.length - quantity.toNat := by
  have hdiff : quantity - (lb.hosts.length : Int) < 0 := by omega
  have hne : ((quantity - (lb.hosts.length : Int)) == 0) = false := by
    rw [beq_eq_false_iff_ne]
    omega
  have habs : (quantity - (lb.hosts.length : Int)).natAbs =
      lb.hosts.length - quantity.toNat := by omega
  constructor
  · unfold ScaleInstanceTask.run
    simp only [hne, Bool.false_eq_true, if_false, habs]
    rw [List.range_eq_range']
    rw [scaleRange_front name lb.hosts _ (by omega) _ 0 (by omega)]
    rw [List.drop_zero]
  · rw [List.length_map, List.length_take]
    omega

/-- Witness for C7: three hosts scaled to one — the first two hosts (in
order) are deleted. -/
theorem claim_C7_witness :
    ScaleInstanceTask.run
      (some (⟨"app1", [⟨1, "h1", "m"⟩, ⟨2, "h2", "m"⟩, ⟨3, "h3", "m"⟩]⟩ : LB))
      "app1" 1 =
    .ok (([(⟨1, "h1", "m"⟩ : HostRecord), ⟨2, "h2", "m"⟩,
        ⟨3, "h3", "m"⟩].take (3 - (1 : Int).toNat)).map ScaleEv.deleteHost) :=
  (claim_C7 (⟨"app1", [⟨1, "h1", "m"⟩, ⟨2, "h2", "m"⟩, ⟨3, "h3", "m"⟩]⟩ : LB)
      "app1" 1 (by decide) (by decide)).1

/-- When the `try` body fails and rollback is on, `_add_host` emits the body
events followed by the rollback events and re-raises the original
exception. -/
theorem add_host_fail (bf : BodyFaults) (rf : RollbackFaults) (name : String)
    (lbGiven : Bool) (e : String)
    (hfail : (runSteps (bodySteps bf name lbGiven)).2 = some e) :
    BaseManagerTask.add_host true bf rf name lbGiven =
      (AddHostEv.hostCreate name :: (runSteps (bodySteps bf name lbGiven)).1
        ++ rollbackEvents rf name (created_lb bf lbGiven), some e) := by
  unfold BaseManagerTask.add_host
  rcases hrs : runSteps (bodySteps bf name lbGiven) with ⟨bodyEvs, res⟩
  rw [hrs] at hfail
  simp only at hfail
  subst hfail
  rfl

/-- Every event produced by the `try` body belongs to its step list. -/
theorem runSteps_subset (steps : List (Option String × AddHostEv)) :
    ∀ ev ∈ (runSteps steps).1, ev ∈ steps.map Prod.snd := by
  induction steps with
  | nil =>
    intro ev h
    simp [runSteps] at h
  | cons s rest ih =>
    rcases s with ⟨f, ev0⟩
    rcases f with _ | err
    · intro ev h
      rw [show runSteps ((none, ev0) :: rest) =
          (ev0 :: (runSteps rest).1, (runSteps rest).2) by
        rcases hr : runSteps rest with ⟨a, b⟩
        simp [runSteps, hr]] at h
      rcases List.mem_cons.mp h with h | h
      · simp [h]
      · simp only [List.map_cons]
        exact List.mem_cons_of_mem _ (ih ev h)
    · intro ev h
      simp [runSteps] at h

/-- The body of `_add_host` never emits a rollback event. -/
theorem body_events_no_rollback (bf : BodyFaults) (name : String)
    (lbGiven : Bool) :
    ∀ ev ∈ (runSteps (bodySteps bf name lbGiven)).1,
      ev ≠ AddHostEv.lbDestroy
      ∧ ev ≠ AddHostEv.logRollbackError "load balancer" := by
  intro ev h
  have := runSteps_subset (bodySteps bf name lbGiven) ev h
  cases lbGiven <;> simp [bodySteps] at this <;>
    rcases this with h | h | h | h | h | h <;> simp [h]

/-- With no load balancer created by this call, the rollback block neither
destroys a load balancer nor logs a load-balancer cleanup failure. -/
theorem rollback_no_lb_events (rf : RollbackFaults) (name : String) :
    AddHostEv.lbDestroy ∉ rollbackEvents rf name false
    ∧ AddHostEv.logRollbackError "load balancer" ∉
        rollbackEvents rf name false := by
  unfold rollbackEvents
  cases rf.delete_host <;> cases rf.hc_destroy <;> simp

/-- **C1.** With rollback enabled, any failure of the `try` body after host
creation makes `_add_host` (a) re-raise exactly the original exception,
whatever the three cleanup steps do; (b) destroy the load balancer iff this
call created one, logging instead of raising when that destroy fails, and
never touching a caller-supplied one; (c) attempt the host destroy, logging
its failure; (d) attempt the health-check removal, logging its failure. -/
theorem claim_C1 (bf : BodyFaults) (rf : RollbackFaults) (name : String)
    (lbGiven : Bool) (e : String)
    (hfail : (runSteps (bodySteps bf name lbGiven)).2 = some e) :
    (BaseManagerTask.add_host true bf rf name lbGiven).2 = some e
    ∧ (created_lb bf lbGiven = true →
        (rf.lb_destroy = none → AddHostEv.lbDestroy ∈
          (BaseManagerTask.add_host true bf rf name lbGiven).1)
        ∧ (∀ e2, rf.lb_destroy = some e2 →
          AddHostEv.logRollbackError "load balancer" ∈
            (BaseManagerTask.add_host true bf rf name lbGiven).1))
    ∧ (created_lb bf lbGiven = false →
        AddHostEv.lbDestroy ∉
          (BaseManagerTask.add_host true bf rf name lbGiven).1
        ∧ AddHostEv.logRollbackError "load balancer" ∉
          (BaseManagerTask.add_host true bf rf name lbGiven).1)
    ∧ ((rf.delete_host = none → AddHostEv.hostDestroy ∈
          (BaseManagerTask.add_host true bf rf name lbGiven).1)
        ∧ (∀ e2, rf.delete_host = some e2 →
          AddHostEv.logRollbackError "host" ∈
            (BaseManagerTask.add_host true bf rf name lbGiven).1))
    ∧ ((rf.hc_destroy = none → AddHostEv.hcDestroy name ∈
          (BaseManagerTask.add_host true bf rf name lbGiven).1)
        ∧ (∀ e2, rf.hc_destroy = some e2 →
          AddHostEv.logRollbackError "healthcheck" ∈
            (BaseManagerTask.add_host true bf rf name lbGiven).1)) := by
  rw [add_host_fail bf rf name lbGiven e hfail]
  refine ⟨rfl, ?_, ?_, ?_, ?_⟩
  · intro hcl
    rw [hcl]
    constructor
    · intro hld
      simp [rollbackEvents, hld]
    · intro e2 hld
      simp [rollbackEvents, hld]
  · intro hcl
    rw [hcl]
    constructor
    · intro hmem
      rcases List.mem_cons.mp hmem with h | h
      · exact AddHostEv.noConfusion h
      rcases List.mem_append.mp h with h | h
      · exact (body_events_no_rollback bf name lbGiven _ h).1 rfl
      · exact (rollback_no_lb_events rf name).1 h
    · intro hmem
      rcases List.mem_cons.mp hmem with h | h
      · exact AddHostEv.noConfusion h
      rcases List.mem_append.mp h with h | h
      · exact (body_events_no_rollback bf name lbGiven _ h).2 rfl
      · exact (rollback_no_lb_events rf name).2 h
  · constructor
    · intro hdh
      cases hcl : created_lb bf lbGiven <;> simp [rollbackEvents, hdh]
    · intro e2 hdh
      cases hcl : created_lb bf lbGiven <;> simp [rollbackEvents, hdh]
  · constructor
    · intro hhc
      cases hcl : created_lb bf lbGiven <;> simp [rollbackEvents, hhc]
    · intro e2 hhc
      cases hcl : created_lb bf lbGiven <;> simp [rollbackEvents, hhc]

/-- Witness for C1, matching the spec's end-to-end rollback scenario: fresh
load balancer, health-check wait times out, rollback enabled, cleanups
succeed — the created LB, the host and the health-check registration are all
destroyed and the original timeout error reaches the caller. -/
theorem claim_C1_witness :
    (BaseManagerTask.add_host true
        ({ wait_healthcheck := some "timeout" } : BodyFaults)
        ({} : RollbackFaults) "app1" false).2 = some "timeout"
    ∧ AddHostEv.lbDestroy ∈
        (BaseManagerTask.add_host true
          ({ wait_healthcheck := some "timeout" } : BodyFaults)
          ({} : RollbackFaults) "app1" false).1
    ∧ AddHostEv.hostDestroy ∈
        (BaseManagerTask.add_host true
          ({ wait_healthcheck := some "timeout" } : BodyFaults)
          ({} : RollbackFaults) "app1" false).1
    ∧ AddHostEv.hcDestroy "app1" ∈
        (BaseManagerTask.add_host true
          ({ wait_healthcheck := some "timeout" } : BodyFaults)
          ({} : RollbackFaults) "app1" false).1 :=
  have h := claim_C1 ({ wait_healthcheck := some "timeout" } : BodyFaults)
    ({} : RollbackFaults) "app1" false "timeout" rfl
  ⟨h.1, (h.2.1 rfl).1 rfl, h.2.2.2.1.1 rfl, h.2.2.2.2.1 rfl⟩

/-- A record with a different id survives `remove_task`. -/
theorem mem_remove_task_of_ne (tasks : List TaskRecord) (n : String)
    (v : TaskRecord) (hv : v ∈ tasks) (hne : v.id ≠ n) :
    v ∈ remove_task tasks n := by
  rw [remove_task]
  exact List.mem_filter.mpr ⟨hv, by simp [hne]⟩

/-- Stamping `last_attempt` leaves a record with the stamped id and time in
the store, provided the id was present. -/
theorem update_task_stamped (tasks : List TaskRecord) (t : TaskRecord)
    (now : Int) (h : t ∈ tasks) :
    ∃ rec ∈ update_task tasks t.id now,
      rec.id = t.id ∧ rec.last_attempt = some now := by
  refine ⟨{ t with last_attempt := some now }, ?_, rfl, rfl⟩
  rw [update_task]
  exact List.mem_map.mpr ⟨t, h, by simp⟩

/-- Stamping one id leaves records with other ids untouched. -/
theorem update_task_other (tasks : List TaskRecord) (n : String) (now : Int)
    (v : TaskRecord) (hv : v ∈ tasks) (hne : v.id ≠ n) :
    v ∈ update_task tasks n now := by
  rw [update_task]
  exact List.mem_map.mpr ⟨v, hv, by simp [hne]⟩

/-- Deleting task documents can only shrink the failure-window instance
set. -/
theorem fi_remove_false (tasks : List TaskRecord) (n : String)
    (d now : Int) (x : String)
    (h : (failure_instances tasks d now).contains x = false) :
    (failure_instances (remove_task tasks n) d now).contains x = false := by
  by_contra hne
  have htrue : (failure_instances (remove_task tasks n) d now).contains x
      = true := by
    revert hne
    cases (failure_instances (remove_task tasks n) d now).contains x <;> simp
  obtain ⟨t, htm, hrest⟩ := (mem_failure_instances _ _ _ _).mp htrue
  have htm' : t ∈ tasks := (List.mem_filter.mp htm).1
  have := (mem_failure_instances tasks d now x).mpr ⟨t, htm', hrest⟩
  rw [h] at this
  exact Bool.noConfusion this

/-- A task whose host is known and whose restore oracle does not fail is
processed without exception: either skipped (cooldown) or deleted. -/
theorem restore_machine_ok_of (cfg : RestoreConfig)
    (oracle : String → Option String) (hosts : List HostRecord)
    (tasks : List TaskRecord) (u : TaskRecord) (now : Int)
    (hfu : oracle u.host = none)
    (hhu : (find_host_id hosts u.host).isSome = true) :
    RestoreMachineTask.restore_machine cfg oracle hosts tasks u now =
        .ok (tasks, [])
    ∨ ∃ evs, RestoreMachineTask.restore_machine cfg oracle hosts tasks u now =
        .ok (remove_task tasks u.id, evs) := by
  unfold RestoreMachineTask.restore_machine
  cases hc : (failure_instances tasks cfg.failure_delay now).contains u.inst
  · right
    cases hd : cfg.dry_mode
    · obtain ⟨h, hh⟩ := Option.isSome_iff_exists.mp hhu
      exact ⟨[RestoreEv.restoreHost u.host,
          RestoreEv.waitHealthcheck u.host cfg.healthcheck_timeout],
        by simp [hc, hd, hh, hfu]⟩
    · exact ⟨[], by simp [hc, hd]⟩
  · left
    simp [hc]

/-- Failure path of the restore loop: with the queue split as
`l1 ++ t :: l2`, every task of `l1` processing cleanly and `t`'s restore
raising, the loop ends with the original exception, the lock released, `t`
stamped `last_attempt = now`, and every task of `l2` still stored
untouched. -/
theorem restoreLoop_fail (cfg : RestoreConfig)
    (oracle : String → Option String) (hosts : List HostRecord) (now : Int)
    (t : TaskRecord) (emsg : String) (hdry : cfg.dry_mode = false)
    (hot : oracle t.host = some emsg)
    (hht : (find_host_id hosts t.host).isSome = true) :
    ∀ (l1 l2 tasks : List TaskRecord) (evs : List RestoreEv),
      (∀ u ∈ l1, oracle u.host = none
        ∧ (find_host_id hosts u.host).isSome = true
        ∧ u.id ≠ t.id ∧ ∀ v ∈ l2, v.id ≠ u.id) →
      t ∈ tasks →
      (∀ v ∈ l2, v ∈ tasks ∧ v.id ≠ t.id) →
      (failure_instances tasks cfg.failure_delay now).contains t.inst
        = false →
      ∃ ft evs2,
        restoreLoop cfg oracle hosts now (l1 ++ t :: l2) tasks evs =
          ⟨ft, false, evs2, some (RestoreErr.external emsg)⟩
        ∧ (∃ rec ∈ ft, rec.id = t.id ∧ rec.last_attempt = some now)
        ∧ (∀ v ∈ l2, v ∈ ft) := by
  intro l1
  induction l1 with
  | nil =>
    intro l2 tasks evs _ htm hl2 hcool
    have hrm : RestoreMachineTask.restore_machine cfg oracle hosts tasks t now
        = .error (RestoreErr.external emsg) := by
      obtain ⟨h, hh⟩ := Option.isSome_iff_exists.mp hht
      have hcool' : t.inst ∉ failure_instances tasks cfg.failure_delay now := by
        simpa using hcool
      unfold RestoreMachineTask.restore_machine
      simp [hcool', hdry, hh, hot]
    refine ⟨update_task tasks t.id now, evs, ?_, ?_, ?_⟩
    · simp only [List.nil_append, restoreLoop, hrm]
    · exact update_task_stamped tasks t now htm
    · intro v hv
      exact update_task_other tasks t.id now v (hl2 v hv).1 (hl2 v hv).2
  | cons u l1' ih =>
    intro l2 tasks evs hok htm hl2 hcool
    have hu := hok u (List.mem_cons_self u l1')
    have hok' : ∀ v ∈ l1', oracle v.host = none
        ∧ (find_host_id hosts v.host).isSome = true
        ∧ v.id ≠ t.id ∧ ∀ w ∈ l2, w.id ≠ v.id :=
      fun v hv => hok v (List.mem_cons_of_mem u hv)
    rcases restore_machine_ok_of cfg oracle hosts tasks u now hu.1 hu.2.1 with
      hcase | ⟨evs2, hcase⟩
    · simp only [List.cons_append, restoreLoop, hcase]
      exact ih l2 tasks (evs ++ []) hok' htm hl2 hcool
    · simp only [List.cons_append, restoreLoop, hcase]
      refine ih l2 (remove_task tasks u.id) (evs ++ evs2) hok' ?_ ?_ ?_
      · exact mem_remove_task_of_ne tasks u.id t htm (Ne.symm hu.2.2.1)
      · intro v hv
        exact ⟨mem_remove_task_of_ne tasks u.id v (hl2 v hv).1
            (hu.2.2.2 v hv), (hl2 v hv).2⟩
      · exact fi_remove_false tasks u.id cfg.failure_delay now t.inst hcool

/-- **C4.** A restore sweep that has acquired the lock and whose restore of
the eligible task `t` raises: the sweep ends at `t` — the exception is
propagated, the lock is released, `t` is stamped `last_attempt = now`, and
every eligible task after `t` is left in the store unprocessed. -/
theorem claim_C4 (cfg : RestoreConfig) (oracle : String → Option String)
    (hosts : List HostRecord) (tasks : List TaskRecord) (now : Int)
    (l1 l2 : List TaskRecord) (t : TaskRecord) (emsg : String)
    (hnodup : (tasks.map TaskRecord.id).Nodup)
    (hdry : cfg.dry_mode = false)
    (hsplit : eligible_restore_tasks tasks now cfg.restore_delay =
      l1 ++ t :: l2)
    (hok : ∀ u ∈ l1, oracle u.host = none
      ∧ (find_host_id hosts u.host).isSome = true)
    (hot : oracle t.host = some emsg)
    (hht : (find_host_id hosts t.host).isSome = true)
    (hcool : (failure_instances tasks cfg.failure_delay now).contains t.inst
      = false) :
    ∃ ft evs2,
      RestoreMachineTask.run cfg oracle hosts tasks now true =
        ⟨ft, false, evs2, some (RestoreErr.external emsg)⟩
      ∧ (∃ rec ∈ ft, rec.id = t.id ∧ rec.last_attempt = some now)
      ∧ (∀ v ∈ l2, v ∈ ft) := by
  have hnd : ((l1 ++ t :: l2).map TaskRecord.id).Nodup := by
    rw [← hsplit]
    exact hnodup.sublist
      (List.Sublist.map TaskRecord.id (List.filter_sublist tasks))
  rw [List.map_append, List.map_cons, List.nodup_append] at hnd
  have hu_t : ∀ u ∈ l1, u.id ≠ t.id := by
    intro u hu heq
    exact hnd.2.2 (List.mem_map_of_mem TaskRecord.id hu)
      (by rw [heq]; exact List.mem_cons_self t.id (l2.map TaskRecord.id))
  have hu_l2 : ∀ u ∈ l1, ∀ v ∈ l2, v.id ≠ u.id := by
    intro u hu v hv heq
    exact hnd.2.2 (List.mem_map_of_mem TaskRecord.id hu)
      (by
        rw [← heq]
        exact List.mem_cons_of_mem t.id (List.mem_map_of_mem TaskRecord.id hv))
  have hv_t : ∀ v ∈ l2, v.id ≠ t.id := by
    intro v hv heq
    exact (List.nodup_cons.mp hnd.2.1).1
      (heq ▸ List.mem_map_of_mem TaskRecord.id hv)
  have hmem_of_elig : ∀ v, v ∈ eligible_restore_tasks tasks now
      cfg.restore_delay → v ∈ tasks := by
    intro v hv
    rw [eligible_restore_tasks] at hv
    exact (List.mem_filter.mp hv).1
  have htm : t ∈ tasks := by
    apply hmem_of_elig
    rw [hsplit]
    exact List.mem_append_right l1 (List.mem_cons_self t l2)
  have hl2m : ∀ v ∈ l2, v ∈ tasks ∧ v.id ≠ t.id := by
    intro v hv
    refine ⟨?_, hv_t v hv⟩
    apply hmem_of_elig
    rw [hsplit]
    exact List.mem_append_right l1 (List.mem_cons_of_mem t hv)
  have hrun : RestoreMachineTask.run cfg oracle hosts tasks now true =
      restoreLoop cfg oracle hosts now (l1 ++ t :: l2) tasks [] := by
    unfold RestoreMachineTask.run
    rw [if_pos rfl, hsplit]
  rw [hrun]
  exact restoreLoop_fail cfg oracle hosts now t emsg hdry hot hht l1 l2 tasks
    [] (fun u hu => ⟨(hok u hu).1, (hok u hu).2, hu_t u hu, hu_l2 u hu⟩)
    htm hl2m hcool

/-- Witness for C4: one eligible restore task whose host restore raises —
the sweep propagates the error, releases the lock, and stamps the task. -/
theorem claim_C4_witness :
    ∃ ft evs2,
      RestoreMachineTask.run ({} : RestoreConfig)
          (fun d => if d == "h1" then some "boom" else none)
          [(⟨1, "h1", "m"⟩ : HostRecord)]
          [(⟨"restore_h1", "h1", "inst1", 0, none⟩ : TaskRecord)] 100 true =
        ⟨ft, false, evs2, some (RestoreErr.external "boom")⟩
      ∧ (∃ rec ∈ ft, rec.id = "restore_h1" ∧ rec.last_attempt = some 100)
      ∧ (∀ v ∈ ([] : List TaskRecord), v ∈ ft) :=
  claim_C4 ({} : RestoreConfig)
    (fun d => if d == "h1" then some "boom" else none)
    [(⟨1, "h1", "m"⟩ : HostRecord)]
    [(⟨"restore_h1", "h1", "inst1", 0, none⟩ : TaskRecord)] 100 [] []
    (⟨"restore_h1", "h1", "inst1", 0, none⟩ : TaskRecord) "boom" (by decide)
    rfl (by decide) (by simp) rfl (by decide) (by decide)

/-- With no `last_attempt` stamp stored anywhere, no instance is in a
failure window. -/
theorem fi_of_fresh (tasks : List TaskRecord) (d now : Int)
    (h : ∀ t ∈ tasks, t.last_attempt = none) :
    failure_instances tasks d now = [] := by
  unfold failure_instances
  have hfil : tasks.filter (fun t =>
      matchesRestoreId t.id &&
      match t.last_attempt with
      | none => false
      | some la => decide (la + d ≥ now)) = [] := by
    apply List.filter_eq_nil_iff.mpr
    intro a ha
    rw [h a ha]
    simp
  rw [hfil]
  rfl

/-- Deleting a task id commutes with the eligibility query. -/
theorem eligible_remove (tasks : List TaskRecord) (n : String)
    (now d : Int) :
    eligible_restore_tasks (remove_task tasks n) now d =
      remove_task (eligible_restore_tasks tasks now d) n := by
  unfold eligible_restore_tasks remove_task
  exact List.filter_comm _ _ tasks

/-- The invariant holds in the initial state. -/
theorem sweepInv_init (cfg : RestoreConfig) (now : Int)
    (tasks : List TaskRecord)
    (hfresh : ∀ t ∈ tasks, t.last_attempt = none)
    (hnodup : (tasks.map TaskRecord.id).Nodup) :
    SweepInv cfg now
      ((eligible_restore_tasks tasks now cfg.restore_delay).map TaskRecord.id)
      (initSys tasks) := by
  refine ⟨?_, ?_, hfresh, hnodup, ?_, ?_, ?_⟩
  · intro w q h
    cases w <;> exact WPhase.noConfusion h
  · intro w h
    exact Option.noConfusion h
  · intro w q h
    cases w <;> exact WPhase.noConfusion h
  · intro x
    rfl
  · intro h
    exact WPhase.noConfusion h

/-- One atomic step preserves the invariant. -/
theorem sweepInv_step (cfg : RestoreConfig) (now : Int) (E0 : List String)
    (w : WId) (s : LockSys) (hinv : SweepInv cfg now E0 s) :
    SweepInv cfg now E0 (sweepStep cfg now w s) := by
  obtain ⟨tasks, lock, pa, pb, prA, prB⟩ := s
  obtain ⟨i1, i2, i3, i4, i5, i6, i7⟩ := hinv
  cases w with
  | A =>
    cases pa with
    | start =>
      cases lock with
      | none =>
        refine ⟨?_, ?_, i3, i4, ?_, i6, ?_⟩
        · intro w q h
          cases w with
          | A => rfl
          | B => exact Option.noConfusion (i1 WId.B q h)
        · intro w h
          have hw := Option.some.inj h
          subst hw
          exact ⟨_, rfl⟩
        · intro w q h
          cases w with
          | A =>
            injection h with hq
            exact hq.symm
          | B => exact Option.noConfusion (i1 WId.B q h)
        · intro hA
          exact WPhase.noConfusion hA
      | some v =>
        have hstep : sweepStep cfg now WId.A
            ⟨tasks, some v, WPhase.start, pb, prA, prB⟩ =
            ⟨tasks, some v, WPhase.done, pb, prA, prB⟩ := rfl
        rw [hstep]
        refine ⟨?_, ?_, i3, i4, ?_, i6, ?_⟩
        · intro w q h
          cases w with
          | A => exact WPhase.noConfusion h
          | B => exact i1 WId.B q h
        · intro w h
          have hw : v = w := Option.some.inj h
          subst hw
          cases v with
          | A =>
            obtain ⟨q, hq⟩ := i2 WId.A rfl
            exact WPhase.noConfusion hq
          | B => exact i2 WId.B rfl
        · intro w q h
          cases w with
          | A => exact WPhase.noConfusion h
          | B => exact i5 WId.B q h
        · intro _ hB
          change pb = WPhase.done at hB
          cases v with
          | A =>
            obtain ⟨q, hq⟩ := i2 WId.A rfl
            exact WPhase.noConfusion hq
          | B =>
            obtain ⟨q, hq⟩ := i2 WId.B rfl
            change pb = WPhase.working q at hq
            rw [hB] at hq
            exact WPhase.noConfusion hq
    | working q =>
      cases q with
      | nil =>
        have hlock : lock = some WId.A := i1 WId.A [] rfl
        refine ⟨?_, ?_, i3, i4, ?_, i6, ?_⟩
        · intro w q h
          cases w with
          | A => exact WPhase.noConfusion h
          | B =>
            have hB := i1 WId.B q h
            rw [hlock] at hB
            exact WId.noConfusion (Option.some.inj hB)
        · intro w h
          exact Option.noConfusion h
        · intro w q h
          cases w with
          | A => exact WPhase.noConfusion h
          | B =>
            have hB := i1 WId.B q h
            rw [hlock] at hB
            exact WId.noConfusion (Option.some.inj hB)
        · intro _ _
          exact (i5 WId.A [] rfl).symm
      | cons t rest =>
        have hlock : lock = some WId.A := i1 WId.A (t :: rest) rfl
        have hfi : failure_instances tasks cfg.failure_delay now = [] :=
          fi_of_fresh tasks cfg.failure_delay now i3
        have hstep : sweepStep cfg now WId.A
            ⟨tasks, lock, WPhase.working (t :: rest), pb, prA, prB⟩ =
            ⟨remove_task tasks t.id, lock, WPhase.working rest, pb,
              prA ++ [t.id], prB⟩ := by
          simp only [sweepStep, LockSys.phase]
          rw [hfi]
          rfl
        rw [hstep]
        have hsnap : t :: rest =
            eligible_restore_tasks tasks now cfg.restore_delay :=
          i5 WId.A (t :: rest) rfl
        have hndel : ((t :: rest).map TaskRecord.id).Nodup := by
          rw [hsnap]
          exact i4.sublist
            (List.Sublist.map TaskRecord.id (List.filter_sublist tasks))
        rw [List.map_cons] at hndel
        have htid : t.id ∉ rest.map TaskRecord.id :=
          (List.nodup_cons.mp hndel).1
        have helig : eligible_restore_tasks (remove_task tasks t.id) now
            cfg.restore_delay = rest := by
          rw [eligible_remove, ← hsnap]
          unfold remove_task
          rw [List.filter_cons]
          simp only [beq_self_eq_true, Bool.not_true, Bool.false_eq_true,
            if_false]
          apply List.filter_eq_self.mpr
          intro v hv
          have hne : v.id ≠ t.id :=
            fun he => htid (he ▸ List.mem_map_of_mem TaskRecord.id hv)
          simp [hne]
        refine ⟨?_, ?_, ?_, ?_, ?_, ?_, ?_⟩
        · intro w q h
          cases w with
          | A => exact hlock
          | B =>
            have hB := i1 WId.B q h
            rw [hlock] at hB
            exact WId.noConfusion (Option.some.inj hB)
        · intro w h
          rw [hlock] at h
          have hw := Option.some.inj h
          subst hw
          exact ⟨rest, rfl⟩
        · intro u hu
          exact i3 u (List.mem_filter.mp hu).1
        · exact i4.sublist
            (List.Sublist.map TaskRecord.id (List.filter_sublist tasks))
        · intro w q h
          cases w with
          | A =>
            injection h with hq
            rw [helig]
            exact hq.symm
          | B =>
            have hB := i1 WId.B q h
            rw [hlock] at hB
            exact WId.noConfusion (Option.some.inj hB)
        · intro x
          have h6 := i6 x
          rw [← hsnap] at h6
          rw [helig]
          simp only [List.count_append, List.map_cons, List.count_cons] at h6 ⊢
          by_cases hx : t.id = x <;> simp [hx] at h6 ⊢ <;> omega
        · intro hA
          exact WPhase.noConfusion hA
    | done =>
      exact ⟨i1, i2, i3, i4, i5, i6, i7⟩
  | B =>
    cases pb with
    | start =>
      cases lock with
      | none =>
        refine ⟨?_, ?_, i3, i4, ?_, ?_, ?_⟩
        · intro w q h
          cases w with
          | A => exact Option.noConfusion (i1 WId.A q h)
          | B => rfl
        · intro w h
          have hw := Option.some.inj h
          subst hw
          exact ⟨_, rfl⟩
        · intro w q h
          cases w with
          | A => exact Option.noConfusion (i1 WId.A q h)
          | B =>
            injection h with hq
            exact hq.symm
        · exact i6
        · intro _ hB
          exact WPhase.noConfusion hB
      | some v =>
        have hstep : sweepStep cfg now WId.B
            ⟨tasks, some v, pa, WPhase.start, prA, prB⟩ =
            ⟨tasks, some v, pa, WPhase.done, prA, prB⟩ := rfl
        rw [hstep]
        refine ⟨?_, ?_, i3, i4, ?_, i6, ?_⟩
        · intro w q h
          cases w with
          | A => exact i1 WId.A q h
          | B => exact WPhase.noConfusion h
        · intro w h
          have hw : v = w := Option.some.inj h
          subst hw
          cases v with
          | A => exact i2 WId.A rfl
          | B =>
            obtain ⟨q, hq⟩ := i2 WId.B rfl
            exact WPhase.noConfusion hq
        · intro w q h
          cases w with
          | A => exact i5 WId.A q h
          | B => exact WPhase.noConfusion h
        · intro hA _
          change pa = WPhase.done at hA
          cases v with
          | A =>
            obtain ⟨q, hq⟩ := i2 WId.A rfl
            change pa = WPhase.working q at hq
            rw [hA] at hq
            exact WPhase.noConfusion hq
          | B =>
            obtain ⟨q, hq⟩ := i2 WId.B rfl
            exact WPhase.noConfusion hq
    | working q =>
      cases q with
      | nil =>
        have hlock : lock = some WId.B := i1 WId.B [] rfl
        refine ⟨?_, ?_, i3, i4, ?_, i6, ?_⟩
        · intro w q h
          cases w with
          | A =>
            have hA := i1 WId.A q h
            rw [hlock] at hA
            exact WId.noConfusion (Option.some.inj hA)
          | B => exact WPhase.noConfusion h
        · intro w h
          exact Option.noConfusion h
        · intro w q h
          cases w with
          | A =>
            have hA := i1 WId.A q h
            rw [hlock] at hA
            exact WId.noConfusion (Option.some.inj hA)
          | B => exact WPhase.noConfusion h
        · intro _ _
          exact (i5 WId.B [] rfl).symm
      | cons t rest =>
        have hlock : lock = some WId.B := i1 WId.B (t :: rest) rfl
        have hfi : failure_instances tasks cfg.failure_delay now = [] :=
          fi_of_fresh tasks cfg.failure_delay now i3
        have hstep : sweepStep cfg now WId.B
            ⟨tasks, lock, pa, WPhase.working (t :: rest), prA, prB⟩ =
            ⟨remove_task tasks t.id, lock, pa, WPhase.working rest,
              prA, prB ++ [t.id]⟩ := by
          simp only [sweepStep, LockSys.phase]
          rw [hfi]
          rfl
        rw [hstep]
        have hsnap : t :: rest =
            eligible_restore_tasks tasks now cfg.restore_delay :=
          i5 WId.B (t :: rest) rfl
        have hndel : ((t :: rest).map TaskRecord.id).Nodup := by
          rw [hsnap]
          exact i4.sublist
            (List.Sublist.map TaskRecord.id (List.filter_sublist tasks))
        rw [List.map_cons] at hndel
        have htid : t.id ∉ rest.map TaskRecord.id :=
          (List.nodup_cons.mp hndel).1
        have helig : eligible_restore_tasks (remove_task tasks t.id) now
            cfg.restore_delay = rest := by
          rw [eligible_remove, ← hsnap]
          unfold remove_task
          rw [List.filter_cons]
          simp only [beq_self_eq_true, Bool.not_true, Bool.false_eq_true,
            if_false]
          apply List.filter_eq_self.mpr
          intro v hv
          have hne : v.id ≠ t.id :=
            fun he => htid (he ▸ List.mem_map_of_mem TaskRecord.id hv)
          simp [hne]
        refine ⟨?_, ?_, ?_, ?_, ?_, ?_, ?_⟩
        · intro w q h
          cases w with
          | A =>
            have hA := i1 WId.A q h
            rw [hlock] at hA
            exact WId.noConfusion (Option.some.inj hA)
          | B => exact hlock
        · intro w h
          rw [hlock] at h
          have hw := Option.some.inj h
          subst hw
          exact ⟨rest, rfl⟩
        · intro u hu
          exact i3 u (List.mem_filter.mp hu).1
        · exact i4.sublist
            (List.Sublist.map TaskRecord.id (List.filter_sublist tasks))
        · intro w q h
          cases w with
          | A =>
            have hA := i1 WId.A q h
            rw [hlock] at hA
            exact WId.noConfusion (Option.some.inj hA)
          | B =>
            injection h with hq
            rw [helig]
            exact hq.symm
        · intro x
          have h6 := i6 x
          rw [← hsnap] at h6
          rw [helig]
          simp only [List.count_append, List.map_cons, List.count_cons] at h6 ⊢
          by_cases hx : t.id = x <;> simp [hx] at h6 ⊢ <;> omega
        · intro _ hB
          exact WPhase.noConfusion hB
    | done =>
      exact ⟨i1, i2, i3, i4, i5, i6, i7⟩

/-- The invariant holds along every schedule. -/
theorem sweepInv_exec (cfg : RestoreConfig) (now : Int) (E0 : List String) :
    ∀ (sched : List WId) (s : LockSys), SweepInv cfg now E0 s →
      SweepInv cfg now E0 (sweepExec cfg now sched s) := by
  intro sched
  induction sched with
  | nil => intro s h; exact h
  | cons w rest ih =>
    intro s h
    exact ih _ (sweepInv_step cfg now E0 w s h)

/-- States satisfying the invariant never have both workers inside the
lock-protected loop. -/
theorem not_bothWorking_of_inv (cfg : RestoreConfig) (now : Int)
    (E0 : List String) (s : LockSys) (hinv : SweepInv cfg now E0 s) :
    ¬ bothWorking s := by
  rintro ⟨⟨qa, ha⟩, ⟨qb, hb⟩⟩
  have h1 : s.lock = some WId.A := hinv.1 WId.A qa ha
  have h2 : s.lock = some WId.B := hinv.1 WId.B qb hb
  rw [h1] at h2
  exact WId.noConfusion (Option.some.inj h2)

/-- **C9.** Two restore sweeps running against the same named lock and task
store, with atomic lock operations and no lock expiry: at no point of any
interleaving are both inside the lock-protected loop (an acquisition attempt
while the lock is held fails at once), and in any completed interleaving
every initially eligible restore task has been processed by exactly one of
the two sweeps. -/
theorem claim_C9 (cfg : RestoreConfig) (tasks : List TaskRecord) (now : Int)
    (hfresh : ∀ t ∈ tasks, t.last_attempt = none)
    (hnodup : (tasks.map TaskRecord.id).Nodup) :
    (∀ sched : List WId,
      ¬ bothWorking (sweepExec cfg now sched (initSys tasks)))
    ∧ (∀ sched : List WId,
      (sweepExec cfg now sched (initSys tasks)).phaseA = WPhase.done →
      (sweepExec cfg now sched (initSys tasks)).phaseB = WPhase.done →
      ∀ t ∈ eligible_restore_tasks tasks now cfg.restore_delay,
        (sweepExec cfg now sched (initSys tasks)).procA.count t.id
          + (sweepExec cfg now sched (initSys tasks)).procB.count t.id
          = 1) := by
  have hinv : ∀ sched : List WId,
      SweepInv cfg now
        ((eligible_restore_tasks tasks now cfg.restore_delay).map
          TaskRecord.id)
        (sweepExec cfg now sched (initSys tasks)) :=
    fun sched => sweepInv_exec cfg now _ sched (initSys tasks)
      (sweepInv_init cfg now tasks hfresh hnodup)
  constructor
  · intro sched
    exact not_bothWorking_of_inv cfg now _ _ (hinv sched)
  · intro sched hA hB t ht
    obtain ⟨_, _, _, _, _, i6, i7⟩ := hinv sched
    have hdone := i7 hA hB
    have h6 := i6 t.id
    rw [hdone] at h6
    have hE0 : ((eligible_restore_tasks tasks now
        cfg.restore_delay).map TaskRecord.id).count t.id = 1 :=
      List.count_eq_one_of_mem
        (hnodup.sublist
          (List.Sublist.map TaskRecord.id (List.filter_sublist tasks)))
        (List.mem_map_of_mem TaskRecord.id ht)
    rw [hE0] at h6
    simpa [List.count_append] using h6

/-- Witness for C9: one eligible restore task, schedule where worker A
acquires, processes and releases, then worker B acquires an empty queue —
the task is processed exactly once. -/
theorem claim_C9_witness :
    (sweepExec ({} : RestoreConfig) 100 [WId.A, WId.A, WId.A, WId.B, WId.B]
        (initSys [(⟨"restore_x", "x", "i1", 0, none⟩ : TaskRecord)])).procA.count
        "restore_x"
      + (sweepExec ({} : RestoreConfig) 100 [WId.A, WId.A, WId.A, WId.B, WId.B]
        (initSys [(⟨"restore_x", "x", "i1", 0, none⟩ : TaskRecord)])).procB.count
        "restore_x"
      = 1 :=
  (claim_C9 ({} : RestoreConfig)
      [(⟨"restore_x", "x", "i1", 0, none⟩ : TaskRecord)] 100 (by decide)
      (by decide)).2 [WId.A, WId.A, WId.A, WId.B, WId.B] (by decide)
    (by decide) (⟨"restore_x", "x", "i1", 0, none⟩ : TaskRecord) (by decide)

end Rpaas
